import Mathlib

/-!
Verification development for the `flight_sql` smoke-test harness
(`src/flight_sql/main.cc`) of the iomete/flightsql-odbc repository.

Part I embeds the harness's own code: the connection-property argument
parsing (`parse_connection_properties`, main.cc lines 40-150) and the
GetTables printing loops (lines 255-310).

Part II models the driver's bound-buffer columnar result-set cursor
(`BindColumn` / `Move` / `GetData`).  The driver implementation is not part
of the supplied source (only its callers are), so those definitions are
modelled from the specification's description of the Bound Cursor and are
marked `Modelled from the spec:` in their doc comments.
-/

namespace FlightSqlHarness

/-! ## Part I.a: connection-property parsing (main.cc lines 40-150)

`Connection::ConnPropertyMap` is a string-keyed map.  We embed it as an
association list together with the `std::map` assignment operation
(`properties[key] = value`): update in place when the key exists, append
otherwise.  The key constants (`FlightSqlConnection::HOST`, ...) are
declared outside the supplied source; we use their symbolic names. -/

abbrev ConnPropertyMap := List (String × String)

/-- `properties[k] = v` on a `std::map`: overwrite the entry for `k` if it
exists, otherwise insert a new entry. -/
def mapSet (m : ConnPropertyMap) (k v : String) : ConnPropertyMap :=
  match m with
  | [] => [(k, v)]
  | (k0, v0) :: rest => if k0 = k then (k, v) :: rest else (k0, v0) :: mapSet rest k v

/-- `properties.find(k)` as a lookup returning the mapped value. -/
def mapGet (m : ConnPropertyMap) (k : String) : Option String :=
  match m with
  | [] => none
  | (k0, v0) :: rest => if k0 = k then some v0 else mapGet rest k

/-- The keys of the map, in order. -/
def mapKeys (m : ConnPropertyMap) : List String := m.map Prod.fst

/-- The default property map built at the top of
`parse_connection_properties` (main.cc lines 42-50). -/
def defaultProperties : ConnPropertyMap :=
  [("HOST", "localhost"),
   ("PORT", "443"),
   ("USER", ""),
   ("PASSWORD", ""),
   ("USE_ENCRYPTION", "true"),
   ("DISABLE_CERTIFICATE_VERIFICATION", "false"),
   ("data_plane", "spark-resources"),
   ("cluster", "arrow")]

/-- The argument loop of `parse_connection_properties` (main.cc lines
54-92, the simple-parsing branch; the getopt branch at lines 107-146
performs the same map updates for the same options).  The input list is
`argv[1..argc-1]`.  A value option consumes the following argument when one
is present and is silently skipped otherwise; an unrecognized argument
prints usage and exits, embedded as `none`. -/
def parseArgsLoop : List String → ConnPropertyMap → Option ConnPropertyMap
  | [], props => some props
  | arg :: rest, props =>
    if arg = "--host" ∨ arg = "-h" then
      match rest with
      | v :: more => parseArgsLoop more (mapSet props "HOST" v)
      | [] => parseArgsLoop [] props
    else if arg = "--port" ∨ arg = "-p" then
      match rest with
      | v :: more => parseArgsLoop more (mapSet props "PORT" v)
      | [] => parseArgsLoop [] props
    else if arg = "--user" ∨ arg = "-u" then
      match rest with
      | v :: more => parseArgsLoop more (mapSet props "USER" v)
      | [] => parseArgsLoop [] props
    else if arg = "--password" ∨ arg = "-w" then
      match rest with
      | v :: more => parseArgsLoop more (mapSet props "PASSWORD" v)
      | [] => parseArgsLoop [] props
    else if arg = "--data-plane" ∨ arg = "-d" then
      match rest with
      | v :: more => parseArgsLoop more (mapSet props "data_plane" v)
      | [] => parseArgsLoop [] props
    else if arg = "--cluster" ∨ arg = "-c" then
      match rest with
      | v :: more => parseArgsLoop more (mapSet props "cluster" v)
      | [] => parseArgsLoop [] props
    else if arg = "--no-encryption" ∨ arg = "-n" then
      parseArgsLoop rest (mapSet props "USE_ENCRYPTION" "false")
    else if arg = "--disable-cert-verify" ∨ arg = "-k" then
      parseArgsLoop rest (mapSet props "DISABLE_CERTIFICATE_VERIFICATION" "true")
    else
      none

/-- `parse_connection_properties` (main.cc lines 40-150): defaults, then
the argument loop.  `args` is `argv[1..argc-1]`; `none` is the
usage-and-exit path. -/
def parse_connection_properties (args : List String) : Option ConnPropertyMap :=
  parseArgsLoop args defaultProperties

/-- Whether an argv element is an option element for getopt: it begins
with `-` and is not `-` alone. -/
def isOptionElement (arg : String) : Bool :=
  match arg.data with
  | '-' :: _ :: _ => true
  | _ => false

/-- The getopt branch of `parse_connection_properties` (main.cc lines
95-146): the `getopt_long` loop over optstring `"h:p:u:w:d:c:nk"` and the
matching long options, with `getopt_long`'s documented GNU behavior made
explicit.  `posixlyCorrect` is whether the `POSIXLY_CORRECT` environment
variable is set: with it, scanning stops at the first non-option element
(the loop sees -1 and the function returns); without it, GNU argument
permutation skips past the non-option element and scanning continues.
`--` ends option scanning.  An unrecognized option element, or a value
option at the end of argv with its required argument missing, makes
`getopt_long` return `?`, which the switch's default case turns into
usage-and-exit, embedded as `none`.  Each option is modelled as its own
argv element with a separated value — the forms the harness's usage text
shows; clustered short options and `--opt=value` forms are not modelled
and none of the properties below depends on them. -/
def getoptLoop (posixlyCorrect : Bool) :
    List String → ConnPropertyMap → Option ConnPropertyMap
  | [], props => some props
  | arg :: rest, props =>
    if arg = "--" then some props
    else if arg = "--host" ∨ arg = "-h" then
      match rest with
      | v :: more => getoptLoop posixlyCorrect more (mapSet props "HOST" v)
      | [] => none
    else if arg = "--port" ∨ arg = "-p" then
      match rest with
      | v :: more => getoptLoop posixlyCorrect more (mapSet props "PORT" v)
      | [] => none
    else if arg = "--user" ∨ arg = "-u" then
      match rest with
      | v :: more => getoptLoop posixlyCorrect more (mapSet props "USER" v)
      | [] => none
    else if arg = "--password" ∨ arg = "-w" then
      match rest with
      | v :: more => getoptLoop posixlyCorrect more (mapSet props "PASSWORD" v)
      | [] => none
    else if arg = "--data-plane" ∨ arg = "-d" then
      match rest with
      | v :: more => getoptLoop posixlyCorrect more (mapSet props "data_plane" v)
      | [] => none
    else if arg = "--cluster" ∨ arg = "-c" then
      match rest with
      | v :: more => getoptLoop posixlyCorrect more (mapSet props "cluster" v)
      | [] => none
    else if arg = "--no-encryption" ∨ arg = "-n" then
      getoptLoop posixlyCorrect rest (mapSet props "USE_ENCRYPTION" "false")
    else if arg = "--disable-cert-verify" ∨ arg = "-k" then
      getoptLoop posixlyCorrect rest
        (mapSet props "DISABLE_CERTIFICATE_VERIFICATION" "true")
    else if isOptionElement arg then
      none
    else if posixlyCorrect then
      some props
    else
      getoptLoop posixlyCorrect rest props

/-- `parse_connection_properties` via the getopt branch, as compiled on
non-Windows platforms: defaults, then the `getopt_long` loop, under a given
`POSIXLY_CORRECT` setting and freshly initialized getopt state. -/
def parse_connection_properties_getopt (posixlyCorrect : Bool)
    (args : List String) : Option ConnPropertyMap :=
  getoptLoop posixlyCorrect args defaultProperties

/-- Argument vectors made only of recognized options (each value option
followed by its value): the vectors on which no non-option element is ever
scanned, so getopt's permutation-versus-stop choice never arises. -/
inductive OptsOnly : List String → Prop
  | nil : OptsOnly []
  | valueOpt (arg v : String) (more : List String) :
      (arg = "--host" ∨ arg = "-h" ∨ arg = "--port" ∨ arg = "-p" ∨
       arg = "--user" ∨ arg = "-u" ∨ arg = "--password" ∨ arg = "-w" ∨
       arg = "--data-plane" ∨ arg = "-d" ∨ arg = "--cluster" ∨ arg = "-c") →
      OptsOnly more → OptsOnly (arg :: v :: more)
  | flagOpt (arg : String) (rest : List String) :
      (arg = "--no-encryption" ∨ arg = "-n" ∨
       arg = "--disable-cert-verify" ∨ arg = "-k") →
      OptsOnly rest → OptsOnly (arg :: rest)

/-! ## Part II: the bound-buffer columnar result-set cursor

The driver code behind `BindColumn` / `Move` / `GetData` is not under the
supplied source; the definitions below are modelled from the
specification's Bound Cursor contract (spec.md sections 3-4) and are used
by the embeddings of the harness loops in Part I.b further down. -/

/-- A result cell: NULL, or a value carried by its canonical textual
representation (the spec: character targets render a type's canonical
textual form). -/
inductive CellValue
  | nullVal : CellValue
  | strVal (s : String) : CellValue
deriving DecidableEq, Repr

/-- A row is the ordered list of its cells (column `i` is entry `i - 1`). -/
abbrev Row := List CellValue

/-- Conversion target type: character data, or a fixed-width native type
of the given byte width (e.g. double = width 8). -/
inductive TargetType
  | charType : TargetType
  | fixedType (width : Nat) : TargetType
deriving DecidableEq, Repr

/-- The canonical textual representation of a cell; `none` for NULL. -/
def canonicalText : CellValue → Option String
  | .nullVal => none
  | .strVal s => some s

/-- Modelled from the spec: conversion of one cell into a caller buffer of
capacity `bufferLength` bytes.  Returns the visible bytes written (the
character path appends a NUL terminator after them, so at most
`bufferLength - 1` visible characters are kept) and the value for the
length-output slot: the full untruncated required length for data, the
NULL sentinel `-1` for a NULL cell (for which no buffer byte is written).
For a fixed-width target the payload bytes are abstracted; only their
count (the type's width) matters to the properties below. -/
def writeCell (ty : TargetType) (cell : CellValue) (bufferLength : Nat) :
    List Char × Int :=
  match canonicalText cell with
  | none => ([], -1)
  | some s =>
    match ty with
    | .charType => (s.data.take (bufferLength - 1), (s.length : Int))
    | .fixedType width => (List.replicate width ' ', (width : Int))

/-- Modelled from the spec: a registered column binding
(`bind(column_index, target_type, buffer, buffer_element_stride,
length_output)`); the buffer itself is caller-owned, so only the index,
target type and per-element capacity are cursor state. -/
structure ColumnBinding where
  column : Nat
  targetType : TargetType
  bufferLength : Nat
deriving DecidableEq, Repr

/-- Modelled from the spec: the Bound Cursor state.  `rows` is the not yet
consumed suffix of the logical result stream, `position` the count of rows
already consumed, `current` the row most recently written by an advance
(the row `get_cell` reads). -/
structure Cursor where
  rows : List Row
  position : Nat
  columnCount : Nat
  bindings : List ColumnBinding
  current : Option Row
deriving DecidableEq, Repr

/-- A fresh cursor over a result of `cols` columns, as produced by
executing a query: position zero, no bindings, no current row. -/
def mkCursor (rows : List Row) (cols : Nat) : Cursor :=
  { rows := rows, position := 0, columnCount := cols, bindings := [], current := none }

/-- Cursor error kinds from the spec's error model that the claims
exercise. -/
inductive CursorError
  | InvalidColumnIndex : CursorError
deriving DecidableEq, Repr

/-- Replace the binding for `col` if present, otherwise append (the spec:
rebinding replaces the prior binding). -/
def setBinding (bs : List ColumnBinding) (b : ColumnBinding) : List ColumnBinding :=
  match bs with
  | [] => [b]
  | b0 :: rest =>
    if b0.column = b.column then b :: rest else b0 :: setBinding rest b

/-- Modelled from the spec: `bind` registers or replaces a binding and
fails with `InvalidColumnIndex`, changing nothing, when the index is
outside `[1, column_count]`. -/
def bind (c : Cursor) (col : Nat) (ty : TargetType) (bufferLength : Nat) :
    Option CursorError × Cursor :=
  if col < 1 ∨ c.columnCount < col then
    (some .InvalidColumnIndex, c)
  else
    (none, { c with bindings := setBinding c.bindings ⟨col, ty, bufferLength⟩ })

/-- The buffer writes one fetched row causes through the registered
bindings: for each binding, the bound column's cell converted into the
bound buffer. -/
def rowWrites (bs : List ColumnBinding) (row : Row) : List (Nat × List Char × Int) :=
  bs.map fun b =>
    match row.get? (b.column - 1) with
    | some cell => (b.column, writeCell b.targetType cell b.bufferLength)
    | none => (b.column, ([], 0))

/-- What one advance call returns: the row count, the rows written, the
per-row buffer writes, and the cursor afterwards. -/
structure AdvanceResult where
  count : Nat
  taken : List Row
  writes : List (List (Nat × List Char × Int))
  cursor : Cursor
deriving DecidableEq, Repr

/-- Modelled from the spec: `advance(max_rows)` (the harness's `Move`)
pulls up to `max_rows` further rows, writes every bound column of each,
and returns the count actually written; the position advances permanently
by that count. -/
def advance (c : Cursor) (maxRows : Nat) : AdvanceResult :=
  let taken := c.rows.take maxRows
  { count := taken.length
    taken := taken
    writes := taken.map (rowWrites c.bindings)
    cursor := { c with
      rows := c.rows.drop maxRows
      position := c.position + taken.length
      current := if taken.isEmpty then c.current else taken.getLast? } }

/-- Modelled from the spec: `get_cell` (the harness's `GetData`) converts
one column of the current row into a caller buffer, without moving the
cursor; `none` when there is no current row or the column is out of
range. -/
def getData (c : Cursor) (col : Nat) (ty : TargetType) (bufferLength : Nat) :
    Option (List Char × Int) :=
  match c.current with
  | none => none
  | some row =>
    match row.get? (col - 1) with
    | none => none
    | some cell => some (writeCell ty cell bufferLength)

/-! ## Part I.b: the harness loops (main.cc lines 153-338)

These embed harness code from the supplied source; they drive the cursor
model of Part II. -/

/-- The batch fetch loop of `TestBindColumn` / `TestBindColumnBigInt`
(main.cc lines 171-186 and 236-252) with `batch_size = 100`: repeatedly
`Move(batch_size)`, accumulate `total += fetched_rows`, stop as soon as
`fetched_rows < batch_size`.  Returns the list of fetched counts in order
and the final accumulated total. -/
def fetchLoop (c : Cursor) (total : Nat) : List Nat × Nat :=
  if (advance c 100).count < 100 then
    ([(advance c 100).count], total + (advance c 100).count)
  else
    ((advance c 100).count ::
        (fetchLoop (advance c 100).cursor (total + (advance c 100).count)).1,
      (fetchLoop (advance c 100).cursor (total + (advance c 100).count)).2)
termination_by c.rows.length
decreasing_by
  all_goals simp only [advance, List.length_take, List.length_drop] at *
  all_goals omega

/-- The `Move(1)` loop of `TestGetData` (main.cc lines 197-202): how many
consecutive `Move(1, 0, 0, nullptr)` calls return 1 before one does not. -/
def moveOnes (c : Cursor) : Nat :=
  if (advance c 1).count = 1 then moveOnes (advance c 1).cursor + 1 else 0
termination_by c.rows.length
decreasing_by
  simp only [advance, List.length_take, List.length_drop] at *
  omega

/-- The cursor state after the harness has issued `n` `Move(1)` calls. -/
def moveN (c : Cursor) : Nat → Cursor
  | 0 => c
  | n + 1 => moveN (advance c 1).cursor n

/-- Reading one column of the current row as a character string of up to
1024 bytes, as the GetTables loops do (`GetData(col, CDataType_CHAR, 0, 0,
result.data(), buffer_length, &result_length)` followed by
`std::string(result.data())`). -/
def readStringCol (c : Cursor) (col : Nat) : String :=
  match getData c col .charType 1024 with
  | some (bytes, _) => String.mk bytes
  | none => ""

/-- The row-printing loop shared by `TestInitialGetTablesCall` (main.cc
lines 262-279) and `TestGetTablesV3` (lines 292-309): `Move(1)` until it
returns something other than 1; per fetched row read catalog, schema and
table via `GetData`, and print `catalog + "." + schema + "." + table`
exactly when all three strings are non-empty.  Returns the printed lines
in order. -/
def getTablesLoop (c : Cursor) : List String :=
  if (advance c 1).count = 1 then
    (if ¬(readStringCol (advance c 1).cursor 1).isEmpty ∧
        ¬(readStringCol (advance c 1).cursor 2).isEmpty ∧
        ¬(readStringCol (advance c 1).cursor 3).isEmpty then
      [readStringCol (advance c 1).cursor 1 ++ "." ++
        readStringCol (advance c 1).cursor 2 ++ "." ++
        readStringCol (advance c 1).cursor 3]
    else []) ++ getTablesLoop (advance c 1).cursor
  else []
termination_by c.rows.length
decreasing_by
  simp only [advance, List.length_take, List.length_drop] at *
  omega

/-- What one cell of `TestGetColumnsV3` prints (main.cc line 331):
`result_length != -1 ? result.data() : "NULL"`. -/
def displayCell (bytes : List Char) (len : Int) : String :=
  if len ≠ -1 then String.mk bytes else "NULL"

/-- The declarative counterpart of one GetTables row: the strings the loop
body reads for columns 1-3 of a row. -/
def rowString (row : Row) (col : Nat) : String :=
  match row.get? (col - 1) with
  | some cell => String.mk (writeCell .charType cell 1024).1
  | none => ""

/-! ## Cursor operation sequences (for the position-monotonicity claim) -/

/-- The three operations a caller may issue on an open cursor between
executions: `bind`, `advance` (the harness's `Move`) and `get_cell` (the
harness's `GetData`). -/
inductive CursorOp
  | bindOp (col : Nat) (ty : TargetType) (bufferLength : Nat) : CursorOp
  | advanceOp (n : Nat) : CursorOp
  | getCellOp (col : Nat) (ty : TargetType) (bufferLength : Nat) : CursorOp
deriving DecidableEq, Repr

/-- The cursor-state effect of one operation: `bind` registers a binding
(or nothing on failure), `advance` consumes rows, `get_cell` reads the
current row without changing the cursor. -/
def applyOp (c : Cursor) : CursorOp → Cursor
  | .bindOp col ty len => (bind c col ty len).2
  | .advanceOp n => (advance c n).cursor
  | .getCellOp _ _ _ => c

/-- The cursor state after a sequence of operations. -/
def runOps (c : Cursor) (ops : List CursorOp) : Cursor :=
  ops.foldl applyOp c

/-- The declarative counterpart of one GetTables loop iteration: the line
printed for a row, or `none` when any of the three strings is empty. -/
def tableRowLine (row : Row) : Option String :=
  if ¬(rowString row 1).isEmpty ∧ ¬(rowString row 2).isEmpty ∧
      ¬(rowString row 3).isEmpty then
    some (rowString row 1 ++ "." ++ rowString row 2 ++ "." ++ rowString row 3)
  else none

/-- The six-row single-column result of the `TestGetData` query
`SELECT 1 UNION ALL ... UNION ALL SELECT 6`. -/
def sixRows : List Row :=
  [[.strVal "1"], [.strVal "2"], [.strVal "3"],
   [.strVal "4"], [.strVal "5"], [.strVal "6"]]

/-! ## Lemmas about the property map -/

theorem mapKeys_mapSet_of_mem (m : ConnPropertyMap) (k v : String)
    (hk : k ∈ mapKeys m) : mapKeys (mapSet m k v) = mapKeys m := by
  induction m with
  | nil => simp [mapKeys] at hk
  | cons p rest ih =>
    rcases p with ⟨k0, v0⟩
    simp only [mapSet]
    by_cases h : k0 = k
    · rw [if_pos h]
      simp [mapKeys, h]
    · rw [if_neg h]
      simp only [mapKeys, List.map_cons, List.mem_cons] at hk ⊢
      rcases hk with hk | hk
      · exact absurd hk.symm h
      · exact congrArg (List.cons k0) (ih hk)

theorem mapGet_mapSet_self (m : ConnPropertyMap) (k v : String) :
    mapGet (mapSet m k v) k = some v := by
  induction m with
  | nil => simp [mapSet, mapGet]
  | cons p rest ih =>
    rcases p with ⟨k0, v0⟩
    simp only [mapSet]
    by_cases h : k0 = k
    · rw [if_pos h]
      simp [mapGet]
    · rw [if_neg h]
      simp only [mapGet, if_neg h]
      exact ih

theorem mapGet_mapSet_ne (m : ConnPropertyMap) (k v k' : String)
    (h : k' ≠ k) : mapGet (mapSet m k v) k' = mapGet m k' := by
  induction m with
  | nil =>
    simp only [mapSet, mapGet]
    rw [if_neg (fun hh : k = k' => h hh.symm)]
  | cons p rest ih =>
    rcases p with ⟨k0, v0⟩
    simp only [mapSet]
    by_cases h0 : k0 = k
    · rw [if_pos h0]
      simp only [mapGet]
      rw [if_neg (fun hh : k = k' => h hh.symm),
        if_neg (fun hh : k0 = k' => h ((h0.symm.trans hh).symm))]
    · rw [if_neg h0]
      simp only [mapGet]
      by_cases h1 : k0 = k'
      · rw [if_pos h1, if_pos h1]
      · rw [if_neg h1, if_neg h1]
        exact ih

/-- One recognized update step keeps the key set of the default map. -/
theorem step_keys (props : ConnPropertyMap) (k v : String)
    (hinv : mapKeys props = mapKeys defaultProperties)
    (hk : k ∈ mapKeys defaultProperties) :
    mapKeys (mapSet props k v) = mapKeys defaultProperties := by
  rw [mapKeys_mapSet_of_mem props k v (by rw [hinv]; exact hk), hinv]

/-- Every map update performed by the argument loop targets a key of the
default map, so the key set never changes. -/
theorem parseArgsLoop_keys (args : List String) (props : ConnPropertyMap) :
    mapKeys props = mapKeys defaultProperties →
    ∀ m, parseArgsLoop args props = some m →
    mapKeys m = mapKeys defaultProperties := by
  induction args, props using parseArgsLoop.induct with
  | case1 props =>
    intro hinv m h
    simp only [parseArgsLoop, Option.some.injEq] at h
    exact h ▸ hinv
  | case2 arg props hc v more ih =>
    intro hinv m h
    rcases hc with rfl | rfl <;>
    · simp only [parseArgsLoop, String.reduceEq, or_true, true_or, or_false, false_or,
        or_self, reduceIte] at h
      exact ih (step_keys _ _ _ hinv (by simp [mapKeys, defaultProperties])) m h
  | case3 arg props hc ih =>
    intro hinv m h
    rcases hc with rfl | rfl <;>
    · simp only [parseArgsLoop, String.reduceEq, or_true, true_or, or_false, false_or,
        or_self, reduceIte, Option.some.injEq] at h
      exact h ▸ hinv
  | case4 arg props h1 hc v more ih =>
    intro hinv m h
    rcases hc with rfl | rfl <;>
    · simp only [parseArgsLoop, String.reduceEq, or_true, true_or, or_false, false_or,
        or_self, reduceIte] at h
      exact ih (step_keys _ _ _ hinv (by simp [mapKeys, defaultProperties])) m h
  | case5 arg props h1 hc ih =>
    intro hinv m h
    rcases hc with rfl | rfl <;>
    · simp only [parseArgsLoop, String.reduceEq, or_true, true_or, or_false, false_or,
        or_self, reduceIte, Option.some.injEq] at h
      exact h ▸ hinv
  | case6 arg props h1 h2 hc v more ih =>
    intro hinv m h
    rcases hc with rfl | rfl <;>
    · simp only [parseArgsLoop, String.reduceEq, or_true, true_or, or_false, false_or,
        or_self, reduceIte] at h
      exact ih (step_keys _ _ _ hinv (by simp [mapKeys, defaultProperties])) m h
  | case7 arg props h1 h2 hc ih =>
    intro hinv m h
    rcases hc with rfl | rfl <;>
    · simp only [parseArgsLoop, String.reduceEq, or_true, true_or, or_false, false_or,
        or_self, reduceIte, Option.some.injEq] at h
      exact h ▸ hinv
  | case8 arg props h1 h2 h3 hc v more ih =>
    intro hinv m h
    rcases hc with rfl | rfl <;>
    · simp only [parseArgsLoop, String.reduceEq, or_true, true_or, or_false, false_or,
        or_self, reduceIte] at h
      exact ih (step_keys _ _ _ hinv (by simp [mapKeys, defaultProperties])) m h
  | case9 arg props h1 h2 h3 hc ih =>
    intro hinv m h
    rcases hc with rfl | rfl <;>
    · simp only [parseArgsLoop, String.reduceEq, or_true, true_or, or_false, false_or,
        or_self, reduceIte, Option.some.injEq] at h
      exact h ▸ hinv
  | case10 arg props h1 h2 h3 h4 hc v more ih =>
    intro hinv m h
    rcases hc with rfl | rfl <;>
    · simp only [parseArgsLoop, String.reduceEq, or_true, true_or, or_false, false_or,
        or_self, reduceIte] at h
      exact ih (step_keys _ _ _ hinv (by simp [mapKeys, defaultProperties])) m h
  | case11 arg props h1 h2 h3 h4 hc ih =>
    intro hinv m h
    rcases hc with rfl | rfl <;>
    · simp only [parseArgsLoop, String.reduceEq, or_true, true_or, or_false, false_or,
        or_self, reduceIte, Option.some.injEq] at h
      exact h ▸ hinv
  | case12 arg props h1 h2 h3 h4 h5 hc v more ih =>
    intro hinv m h
    rcases hc with rfl | rfl <;>
    · simp only [parseArgsLoop, String.reduceEq, or_true, true_or, or_false, false_or,
        or_self, reduceIte] at h
      exact ih (step_keys _ _ _ hinv (by simp [mapKeys, defaultProperties])) m h
  | case13 arg props h1 h2 h3 h4 h5 hc ih =>
    intro hinv m h
    rcases hc with rfl | rfl <;>
    · simp only [parseArgsLoop, String.reduceEq, or_true, true_or, or_false, false_or,
        or_self, reduceIte, Option.some.injEq] at h
      exact h ▸ hinv
  | case14 arg rest props h1 h2 h3 h4 h5 h6 hc ih =>
    intro hinv m h
    rcases hc with rfl | rfl <;>
    · rw [parseArgsLoop.eq_def] at h
      simp only [String.reduceEq, or_true, true_or, or_false, false_or,
        or_self, reduceIte] at h
      exact ih (step_keys _ _ _ hinv (by simp [mapKeys, defaultProperties])) m h
  | case15 arg rest props h1 h2 h3 h4 h5 h6 h7 hc ih =>
    intro hinv m h
    rcases hc with rfl | rfl <;>
    · rw [parseArgsLoop.eq_def] at h
      simp only [String.reduceEq, or_true, true_or, or_false, false_or,
        or_self, reduceIte] at h
      exact ih (step_keys _ _ _ hinv (by simp [mapKeys, defaultProperties])) m h
  | case16 arg rest props h1 h2 h3 h4 h5 h6 h7 h8 =>
    intro hinv m h
    rw [parseArgsLoop.eq_def] at h
    simp only [] at h
    rw [if_neg h1, if_neg h2, if_neg h3, if_neg h4, if_neg h5, if_neg h6,
      if_neg h7, if_neg h8] at h
    exact Option.noConfusion h

/-! ## Lemmas about the cursor -/

theorem advance_count_le (c : Cursor) (n : Nat) : (advance c n).count ≤ n := by
  simp only [advance, List.length_take]
  exact Nat.min_le_left n _

theorem advance_position (c : Cursor) (n : Nat) :
    (advance c n).cursor.position = c.position + (advance c n).count := rfl

/-- The `Move(1)` loop succeeds once per remaining row. -/
theorem moveOnes_eq_length (c : Cursor) : moveOnes c = c.rows.length := by
  induction c using moveOnes.induct with
  | case1 c h ih =>
    rw [moveOnes, if_pos h, ih]
    simp only [advance, List.length_take, List.length_drop] at h ⊢
    omega
  | case2 c h =>
    rw [moveOnes, if_neg h]
    simp only [advance, List.length_take] at h
    omega

theorem readStringCol_current (c : Cursor) (row : Row) (col : Nat)
    (h : c.current = some row) : readStringCol c col = rowString row col := by
  simp only [readStringCol, getData, rowString, h]
  cases row.get? (col - 1) <;> rfl

theorem applyOp_position_le (c : Cursor) (op : CursorOp) :
    c.position ≤ (applyOp c op).position := by
  cases op with
  | bindOp col ty len =>
    simp only [applyOp, bind]
    split <;> exact le_refl _
  | advanceOp n => exact Nat.le_add_right _ _
  | getCellOp col ty len => exact le_refl _

theorem runOps_position_le (c : Cursor) (ops : List CursorOp) :
    c.position ≤ (runOps c ops).position := by
  induction ops generalizing c with
  | nil => exact le_refl _
  | cons op ops ih => exact le_trans (applyOp_position_le c op) (ih (applyOp c op))

/-- An advance takes exactly the next rows of the logical stream and
re-establishes the stream invariant at the new position. -/
theorem advance_stream (stream : List Row) (c : Cursor) (n : Nat)
    (h : c.rows = stream.drop c.position) :
    (advance c n).taken = (stream.drop c.position).take n ∧
    (advance c n).cursor.rows = stream.drop (advance c n).cursor.position := by
  constructor
  · show List.take n c.rows = List.take n (List.drop c.position stream)
    rw [h]
  · show List.drop n c.rows =
      List.drop (c.position + (List.take n c.rows).length) stream
    rw [h, List.length_take, List.drop_drop]
    rcases le_or_lt n (stream.length - c.position) with hn | hn
    · congr 1
      rw [List.length_drop]
      omega
    · have h1 : List.drop (c.position + n) stream = [] := by
        rw [List.drop_eq_nil_iff]
        omega
      have h2 : List.drop
          (c.position + min n (List.drop c.position stream).length) stream = [] := by
        rw [List.drop_eq_nil_iff, List.length_drop]
        omega
      rw [h1, h2]

/-- The stream invariant is preserved by every operation sequence. -/
theorem runOps_stream (stream : List Row) (c : Cursor) (ops : List CursorOp)
    (h : c.rows = stream.drop c.position) :
    (runOps c ops).rows = stream.drop (runOps c ops).position := by
  induction ops generalizing c with
  | nil => exact h
  | cons op ops ih =>
    apply ih
    cases op with
    | bindOp col ty len =>
      show (bind c col ty len).2.rows =
        stream.drop (bind c col ty len).2.position
      simp only [bind]
      split <;> exact h
    | advanceOp n => exact (advance_stream stream c n h).2
    | getCellOp col ty len => exact h

/-! ## The claims -/

/-- C1: in the batch-100 fetch loop of `TestBindColumn` /
`TestBindColumnBigInt`, every returned count is at most 100, the
accumulated total equals the sum of the returned counts, and the loop
stops exactly at the first call whose count is strictly below 100 (all
earlier counts equal 100). -/
theorem claim_C1_fetch_loop (c : Cursor) (total : Nat) :
    (∀ k ∈ (fetchLoop c total).1, k ≤ 100) ∧
    (fetchLoop c total).2 = total + ((fetchLoop c total).1).sum ∧
    (∃ pre last, (fetchLoop c total).1 = pre ++ [last] ∧
      (∀ k ∈ pre, k = 100) ∧ last < 100) := by
  induction c, total using fetchLoop.induct with
  | case1 c total h =>
    rw [fetchLoop, if_pos h]
    refine ⟨?_, by simp, [], (advance c 100).count, by simp, by simp, h⟩
    intro k hk
    simp only [List.mem_singleton] at hk
    exact hk ▸ Nat.le_of_lt h
  | case2 c total h ih =>
    rw [fetchLoop, if_neg h]
    obtain ⟨ih1, ih2, pre, last, hsplit, hpre, hlast⟩ := ih
    have hcount : (advance c 100).count = 100 :=
      Nat.le_antisymm (advance_count_le c 100) (Nat.not_lt.mp h)
    refine ⟨?_, ?_, (advance c 100).count :: pre, last, ?_, ?_, hlast⟩
    · intro k hk
      rcases List.mem_cons.mp hk with rfl | hk
      · exact advance_count_le c 100
      · exact ih1 k hk
    · simp only [List.sum_cons]
      rw [ih2]
      omega
    · simp only [hsplit, List.cons_append]
    · intro k hk
      rcases List.mem_cons.mp hk with rfl | hk
      · exact hcount
      · exact hpre k hk

/-- C2: converting a cell whose canonical text does not fit the character
buffer writes exactly `bufferLength - 1` visible characters (never more:
the buffer is not overflowed), those characters are the truncated prefix
of the canonical text, and the length-output slot receives the full
untruncated required length.  `GetData` produces exactly this conversion
for the addressed cell of the current row. -/
theorem claim_C2_char_truncation (cell : CellValue) (s : String) (L : Nat)
    (c : Cursor) (row : Row) (col : Nat) (ty : TargetType)
    (hcanon : canonicalText cell = some s)
    (hL : 1 ≤ L) (hsmall : L ≤ s.length)
    (hcur : c.current = some row) (hcell : row.get? (col - 1) = some cell) :
    (writeCell TargetType.charType cell L).1.length = L - 1 ∧
    (writeCell TargetType.charType cell L).1 = s.data.take (L - 1) ∧
    (writeCell TargetType.charType cell L).2 = (s.length : Int) ∧
    getData c col ty L = some (writeCell ty cell L) := by
  refine ⟨?_, ?_, ?_, ?_⟩
  · simp only [writeCell, hcanon, List.length_take]
    have hdata : s.data.length = s.length := rfl
    omega
  · simp only [writeCell, hcanon]
  · simp only [writeCell, hcanon]
  · simp only [getData, hcur, hcell]

/-- C2 witness: a five-character value converted into a three-byte
character buffer keeps two visible characters and reports length 5. -/
theorem claim_C2_char_truncation_witness :
    (writeCell TargetType.charType (CellValue.strVal "hello") 3).1.length = 3 - 1 ∧
    (writeCell TargetType.charType (CellValue.strVal "hello") 3).1 =
      "hello".data.take (3 - 1) ∧
    (writeCell TargetType.charType (CellValue.strVal "hello") 3).2 =
      ("hello".length : Int) ∧
    getData (advance (mkCursor [[CellValue.strVal "hello"]] 1) 1).cursor 1
        TargetType.charType 3 =
      some (writeCell TargetType.charType (CellValue.strVal "hello") 3) :=
  claim_C2_char_truncation (CellValue.strVal "hello") "hello" 3
    (advance (mkCursor [[CellValue.strVal "hello"]] 1) 1).cursor
    [CellValue.strVal "hello"] 1 TargetType.charType rfl (by decide) (by decide)
    rfl rfl

/-- C3: the GetTables printing loops (`TestInitialGetTablesCall` and
`TestGetTablesV3`) print one `catalog.schema.table` line for a fetched row
if and only if all three strings read for it are non-empty; rows with any
empty string contribute no output. -/
theorem claim_C3_print_iff_nonempty (c : Cursor) :
    getTablesLoop c = c.rows.filterMap tableRowLine := by
  induction c using getTablesLoop.induct with
  | case1 c h ih =>
    obtain ⟨row, rest, hrow⟩ : ∃ row rest, c.rows = row :: rest := by
      rcases hc : c.rows with _ | ⟨row, rest⟩
      · exfalso
        simp [advance, hc] at h
      · exact ⟨row, rest, rfl⟩
    have hcur : (advance c 1).cursor.current = some row := by
      simp [advance, hrow]
    have hrest : (advance c 1).cursor.rows = rest := by
      simp [advance, hrow]
    rw [getTablesLoop, if_pos h, ih, hrest, hrow,
      readStringCol_current _ _ 1 hcur, readStringCol_current _ _ 2 hcur,
      readStringCol_current _ _ 3 hcur]
    by_cases hP : ¬(rowString row 1).isEmpty ∧ ¬(rowString row 2).isEmpty ∧
        ¬(rowString row 3).isEmpty
    · have hline : tableRowLine row =
          some (rowString row 1 ++ "." ++ rowString row 2 ++ "." ++ rowString row 3) := by
        rw [tableRowLine, if_pos hP]
      rw [if_pos hP, List.filterMap_cons_some hline, List.singleton_append]
    · have hline : tableRowLine row = none := by
        rw [tableRowLine, if_neg hP]
      rw [if_neg hP, List.filterMap_cons_none hline, List.nil_append]
  | case2 c h =>
    have hnil : c.rows = [] := by
      rcases hc : c.rows with _ | ⟨row, rest⟩
      · rfl
      · exact absurd (by simp [advance, hc]) h
    rw [getTablesLoop, if_neg h, hnil]
    rfl

/-- C4: a NULL cell sets the length-output slot to the NULL sentinel `-1`
and writes no buffer bytes, whatever the target type; `GetData` reports
exactly that for a NULL cell of the current row, a bound NULL cell
produces the same write during an advance, and the `TestGetColumnsV3`
display logic renders the sentinel as `NULL`. -/
theorem claim_C4_null_cell (ty : TargetType) (L : Nat) (c : Cursor)
    (row : Row) (col : Nat) (bs : List ColumnBinding) (b : ColumnBinding)
    (hcur : c.current = some row)
    (hcell : row.get? (col - 1) = some CellValue.nullVal)
    (hb : b ∈ bs)
    (hbcell : row.get? (b.column - 1) = some CellValue.nullVal) :
    writeCell ty CellValue.nullVal L = ([], -1) ∧
    getData c col ty L = some ([], -1) ∧
    (b.column, (([] : List Char), (-1 : Int))) ∈ rowWrites bs row ∧
    displayCell [] (-1) = "NULL" := by
  have hwrite : ∀ ty' L', writeCell ty' CellValue.nullVal L' = ([], -1) := by
    intro ty' L'
    simp [writeCell, canonicalText]
  refine ⟨hwrite ty L, ?_, ?_, ?_⟩
  · simp only [getData, hcur, hcell, hwrite]
  · refine List.mem_map.mpr ⟨b, hb, ?_⟩
    rw [hbcell]
    simp only [hwrite]
  · rfl

/-- C4 witness: after `Move(1)` onto a single NULL row, `GetData` on
column 1 writes no bytes and reports `-1`, the bound fixed-width column
write for that row is `([], -1)`, and the sentinel prints as `NULL`. -/
theorem claim_C4_null_cell_witness :
    writeCell (TargetType.fixedType 8) CellValue.nullVal 1024 = ([], -1) ∧
    getData (advance (mkCursor [[CellValue.nullVal]] 1) 1).cursor 1
        (TargetType.fixedType 8) 1024 =
      some ([], -1) ∧
    ((1 : Nat), (([] : List Char), (-1 : Int))) ∈
      rowWrites [⟨1, TargetType.fixedType 8, 8⟩] [CellValue.nullVal] ∧
    displayCell [] (-1) = "NULL" :=
  claim_C4_null_cell (TargetType.fixedType 8) 1024
    (advance (mkCursor [[CellValue.nullVal]] 1) 1).cursor
    [CellValue.nullVal] 1 [⟨1, TargetType.fixedType 8, 8⟩]
    ⟨1, TargetType.fixedType 8, 8⟩ rfl rfl (List.mem_singleton.mpr rfl) rfl

/-- C5: on the six-row result of `TestGetData`, one `advance(100)` returns
6 and exhausts the stream, a following `advance(100)` returns 0, the
harness's `Move(1)` loop succeeds exactly 6 times, and the 7th `Move(1)`
returns 0. -/
theorem claim_C5_six_row_scenario :
    (advance (mkCursor sixRows 1) 100).count = 6 ∧
    (advance (mkCursor sixRows 1) 100).cursor.rows = [] ∧
    (advance (advance (mkCursor sixRows 1) 100).cursor 100).count = 0 ∧
    moveOnes (mkCursor sixRows 1) = 6 ∧
    (advance (moveN (mkCursor sixRows 1) 6) 1).count = 0 := by
  refine ⟨rfl, rfl, rfl, ?_, rfl⟩
  rw [moveOnes_eq_length]
  rfl

/-- C6: binding a column whose index is outside `[1, column_count]` fails
with `InvalidColumnIndex` and returns the cursor completely unchanged (no
binding registered, nothing written, fetched data untouched). -/
theorem claim_C6_bind_invalid_index (c : Cursor) (col : Nat)
    (ty : TargetType) (len : Nat) (h : col < 1 ∨ c.columnCount < col) :
    bind c col ty len = (some CursorError.InvalidColumnIndex, c) := by
  simp only [bind, if_pos h]

/-- C6 witness: binding column 3 of a two-column result fails with
`InvalidColumnIndex` and leaves the cursor as it was. -/
theorem claim_C6_bind_invalid_index_witness :
    bind (mkCursor [] 2) 3 TargetType.charType 1000 =
      (some CursorError.InvalidColumnIndex, mkCursor [] 2) :=
  claim_C6_bind_invalid_index (mkCursor [] 2) 3 TargetType.charType 1000
    (Or.inr (by decide))

/-- C7: the cursor position is a monotone offset into the logical stream:
an advance that writes `k` rows moves the position forward by exactly `k`,
no bind/advance/get_cell sequence ever decreases it, each advance returns
precisely the stream rows starting at the current position (never a row
already passed), and the stream invariant persists across every operation
sequence. -/
theorem claim_C7_position_monotone :
    (∀ (c : Cursor) (n : Nat),
      (advance c n).cursor.position = c.position + (advance c n).count) ∧
    (∀ (c : Cursor) (ops : List CursorOp),
      c.position ≤ (runOps c ops).position) ∧
    (∀ (stream : List Row) (c : Cursor) (n : Nat),
      c.rows = stream.drop c.position →
      (advance c n).taken = (stream.drop c.position).take n ∧
      (advance c n).cursor.rows = stream.drop (advance c n).cursor.position) ∧
    (∀ (stream : List Row) (c : Cursor) (ops : List CursorOp),
      c.rows = stream.drop c.position →
      (runOps c ops).rows = stream.drop (runOps c ops).position) :=
  ⟨advance_position, runOps_position_le, advance_stream, runOps_stream⟩

/-- C7 witness: the monotonicity and stream facts instantiated on a
concrete one-row cursor and a single `Move(1)`. -/
theorem claim_C7_position_monotone_witness :
    (advance (mkCursor [[CellValue.strVal "a"]] 1) 1).cursor.position =
      (mkCursor [[CellValue.strVal "a"]] 1).position +
        (advance (mkCursor [[CellValue.strVal "a"]] 1) 1).count ∧
    (mkCursor [[CellValue.strVal "a"]] 1).position ≤
      (runOps (mkCursor [[CellValue.strVal "a"]] 1) [CursorOp.advanceOp 1]).position ∧
    (advance (mkCursor [[CellValue.strVal "a"]] 1) 1).taken =
      (([[CellValue.strVal "a"]] : List Row).drop
        (mkCursor [[CellValue.strVal "a"]] 1).position).take 1 ∧
    (runOps (mkCursor [[CellValue.strVal "a"]] 1) [CursorOp.advanceOp 1]).rows =
      ([[CellValue.strVal "a"]] : List Row).drop
        (runOps (mkCursor [[CellValue.strVal "a"]] 1) [CursorOp.advanceOp 1]).position :=
  ⟨claim_C7_position_monotone.1 (mkCursor [[CellValue.strVal "a"]] 1) 1,
   claim_C7_position_monotone.2.1 (mkCursor [[CellValue.strVal "a"]] 1)
     [CursorOp.advanceOp 1],
   (claim_C7_position_monotone.2.2.1 [[CellValue.strVal "a"]]
     (mkCursor [[CellValue.strVal "a"]] 1) 1 rfl).1,
   claim_C7_position_monotone.2.2.2 [[CellValue.strVal "a"]]
     (mkCursor [[CellValue.strVal "a"]] 1) [CursorOp.advanceOp 1] rfl⟩

/-- C8: whenever `parse_connection_properties` returns, the returned map
has exactly the eight keys of the default map, in particular recognized
options never add or remove keys. -/
theorem claim_C8_key_set (args : List String) (m : ConnPropertyMap)
    (h : parse_connection_properties args = some m) :
    mapKeys m = ["HOST", "PORT", "USER", "PASSWORD", "USE_ENCRYPTION",
      "DISABLE_CERTIFICATE_VERIFICATION", "data_plane", "cluster"] := by
  rw [parseArgsLoop_keys args defaultProperties rfl m h]
  rfl

/-- C8 witness: the key set on the empty argument vector. -/
theorem claim_C8_key_set_witness :
    mapKeys defaultProperties = ["HOST", "PORT", "USER", "PASSWORD",
      "USE_ENCRYPTION", "DISABLE_CERTIFICATE_VERIFICATION",
      "data_plane", "cluster"] :=
  claim_C8_key_set [] defaultProperties rfl

/-- C9: processing `--no-encryption` / `-n` performs exactly the update of
`USE_ENCRYPTION` to `"false"`, and `--disable-cert-verify` / `-k` exactly
the update of `DISABLE_CERTIFICATE_VERIFICATION` to `"true"`; each such
update leaves the value of every other key unchanged. -/
theorem claim_C9_flag_frame_effect :
    (∀ (flag : String) (rest : List String) (props : ConnPropertyMap),
      flag = "--no-encryption" ∨ flag = "-n" →
      parseArgsLoop (flag :: rest) props =
        parseArgsLoop rest (mapSet props "USE_ENCRYPTION" "false")) ∧
    (∀ (flag : String) (rest : List String) (props : ConnPropertyMap),
      flag = "--disable-cert-verify" ∨ flag = "-k" →
      parseArgsLoop (flag :: rest) props =
        parseArgsLoop rest (mapSet props "DISABLE_CERTIFICATE_VERIFICATION" "true")) ∧
    (∀ (props : ConnPropertyMap) (k : String), k ≠ "USE_ENCRYPTION" →
      mapGet (mapSet props "USE_ENCRYPTION" "false") k = mapGet props k) ∧
    (∀ (props : ConnPropertyMap) (k : String),
      k ≠ "DISABLE_CERTIFICATE_VERIFICATION" →
      mapGet (mapSet props "DISABLE_CERTIFICATE_VERIFICATION" "true") k =
        mapGet props k) ∧
    (∀ props : ConnPropertyMap,
      mapGet (mapSet props "USE_ENCRYPTION" "false") "USE_ENCRYPTION" =
        some "false" ∧
      mapGet (mapSet props "DISABLE_CERTIFICATE_VERIFICATION" "true")
        "DISABLE_CERTIFICATE_VERIFICATION" = some "true") := by
  refine ⟨?_, ?_, ?_, ?_, ?_⟩
  · intro flag rest props hc
    rcases hc with rfl | rfl <;>
    · rw [parseArgsLoop.eq_def]
      simp only [String.reduceEq, or_true, true_or, or_false, false_or, or_self,
        reduceIte]
  · intro flag rest props hc
    rcases hc with rfl | rfl <;>
    · rw [parseArgsLoop.eq_def]
      simp only [String.reduceEq, or_true, true_or, or_false, false_or, or_self,
        reduceIte]
  · intro props k hk
    exact mapGet_mapSet_ne props "USE_ENCRYPTION" "false" k hk
  · intro props k hk
    exact mapGet_mapSet_ne props "DISABLE_CERTIFICATE_VERIFICATION" "true" k hk
  · intro props
    exact ⟨mapGet_mapSet_self props "USE_ENCRYPTION" "false",
      mapGet_mapSet_self props "DISABLE_CERTIFICATE_VERIFICATION" "true"⟩

/-- C9 witness: the `-n` step on the default map, the frame fact for the
`HOST` entry, and the updated `USE_ENCRYPTION` value. -/
theorem claim_C9_flag_frame_effect_witness :
    parseArgsLoop ["-n"] defaultProperties =
      parseArgsLoop [] (mapSet defaultProperties "USE_ENCRYPTION" "false") ∧
    mapGet (mapSet defaultProperties "USE_ENCRYPTION" "false") "HOST" =
      mapGet defaultProperties "HOST" ∧
    mapGet (mapSet defaultProperties "USE_ENCRYPTION" "false") "USE_ENCRYPTION" =
      some "false" :=
  ⟨claim_C9_flag_frame_effect.1 "-n" [] defaultProperties (Or.inr rfl),
   claim_C9_flag_frame_effect.2.2.1 defaultProperties "HOST" (by decide),
   (claim_C9_flag_frame_effect.2.2.2.2 defaultProperties).1⟩

/-- On option-only argument vectors the getopt branch and the simple
branch perform the identical sequence of map updates, independently of the
`POSIXLY_CORRECT` setting. -/
theorem getoptLoop_eq_parseArgsLoop (args : List String) (h : OptsOnly args) :
    ∀ (p : Bool) (props : ConnPropertyMap),
      getoptLoop p args props = parseArgsLoop args props := by
  induction h with
  | nil =>
    intro p props
    rfl
  | valueOpt arg v more ho hmore ih =>
    intro p props
    rcases ho with rfl | rfl | rfl | rfl | rfl | rfl | rfl | rfl | rfl | rfl | rfl | rfl <;>
    · rw [getoptLoop.eq_def, parseArgsLoop.eq_def]
      simp only [String.reduceEq, or_true, true_or, or_false, false_or, or_self,
        reduceIte]
      exact ih p _
  | flagOpt arg rest ho hrest ih =>
    intro p props
    rcases ho with rfl | rfl | rfl | rfl <;>
    · rw [getoptLoop.eq_def, parseArgsLoop.eq_def]
      simp only [String.reduceEq, or_true, true_or, or_false, false_or, or_self,
        reduceIte]
      exact ih p _

/-- C10 counterexample: on the argument vector `x -n` both runs return,
but without `POSIXLY_CORRECT` GNU permutation skips the operand `x` and
processes `-n` (encryption off), while with `POSIXLY_CORRECT` set,
scanning stops at `x` and the defaults survive (encryption on).  The
returned map therefore does not depend on the argument vector alone. -/
theorem claim_C10_env_counterexample :
    parse_connection_properties_getopt true ["x", "-n"] =
      some defaultProperties ∧
    parse_connection_properties_getopt false ["x", "-n"] =
      some (mapSet defaultProperties "USE_ENCRYPTION" "false") ∧
    mapGet defaultProperties "USE_ENCRYPTION" = some "true" ∧
    mapGet (mapSet defaultProperties "USE_ENCRYPTION" "false")
      "USE_ENCRYPTION" = some "false" :=
  ⟨rfl, rfl, rfl, rfl⟩

/-- C10 (amended): under a fixed `POSIXLY_CORRECT` setting and fresh
getopt state, two runs of `parse_connection_properties` on the same
argument vector that return produce the same map (likewise in the simple
branch); and on argument vectors made only of recognized options the
result does not depend on `POSIXLY_CORRECT` at all and agrees across both
source branches. -/
theorem claim_C10_env_determinism :
    (∀ (p : Bool) (args : List String) (m1 m2 : ConnPropertyMap),
      parse_connection_properties_getopt p args = some m1 →
      parse_connection_properties_getopt p args = some m2 → m1 = m2) ∧
    (∀ (args : List String) (m1 m2 : ConnPropertyMap),
      parse_connection_properties args = some m1 →
      parse_connection_properties args = some m2 → m1 = m2) ∧
    (∀ (p q : Bool) (args : List String), OptsOnly args →
      parse_connection_properties_getopt p args =
        parse_connection_properties_getopt q args) ∧
    (∀ (args : List String), OptsOnly args → ∀ (p : Bool),
      parse_connection_properties_getopt p args =
        parse_connection_properties args) := by
  refine ⟨fun p args m1 m2 h1 h2 => ?_, fun args m1 m2 h1 h2 => ?_,
    fun p q args h => ?_, fun args h p => ?_⟩
  · rw [h1] at h2
    exact Option.some.inj h2
  · rw [h1] at h2
    exact Option.some.inj h2
  · show getoptLoop p args defaultProperties = getoptLoop q args defaultProperties
    rw [getoptLoop_eq_parseArgsLoop args h p, getoptLoop_eq_parseArgsLoop args h q]
  · exact getoptLoop_eq_parseArgsLoop args h p defaultProperties

/-- C10 witness: the amended determinism applied at concrete inputs — the
two `POSIXLY_CORRECT` settings agree on the option-only vector `-n`, the
getopt branch agrees with the simple branch there, and the parse of the
empty vector is unique. -/
theorem claim_C10_env_determinism_witness :
    parse_connection_properties_getopt true ["-n"] =
      parse_connection_properties_getopt false ["-n"] ∧
    parse_connection_properties_getopt true ["-n"] =
      parse_connection_properties ["-n"] ∧
    defaultProperties = defaultProperties :=
  ⟨claim_C10_env_determinism.2.2.1 true false ["-n"]
     (OptsOnly.flagOpt "-n" [] (Or.inr (Or.inl rfl)) OptsOnly.nil),
   claim_C10_env_determinism.2.2.2 ["-n"]
     (OptsOnly.flagOpt "-n" [] (Or.inr (Or.inl rfl)) OptsOnly.nil) true,
   claim_C10_env_determinism.1 true [] defaultProperties defaultProperties rfl rfl⟩

end FlightSqlHarness
